import Mathlib

/-!
Verification of the utility scripts of this repository: the `makedata.py`
command-line driver, the metadata test modules under `python/`, and the
population-printing script under `python_scripts/`.

The scripts are shallowly embedded: argument parsing, the effect traces of
the two executable scripts, and the metadata decoding paths exercised by the
tests are modelled as executable Lean functions.  Python floats are modelled
as exact rationals; byte blobs are lists of naturals below 256.
-/

namespace TskitScripts

/-! ## JSON values

Model of the decoded form of a JSON metadata payload, as produced by the
schema-driven JSON codec of the external tree-sequence library (and, for the
payloads appearing here, by Python's `eval` of the raw blob).  Numbers are
exact rationals. -/

inductive JValue where
  | str (s : String)
  | num (q : ℚ)
  | boolean (b : Bool)
  | null
  | arr (elems : List JValue)
  | obj (fields : List (String × JValue))

/-- Field lookup on a decoded JSON object, mirroring `md["key"]` on the
Python side. -/
def objField (v : JValue) (k : String) : Option JValue :=
  match v with
  | JValue.obj fields => fields.lookup k
  | _ => none

/-- `md["key"]` on a possibly-failed decode. -/
def fieldOf (md : Option JValue) (k : String) : Option JValue :=
  match md with
  | some v => objField v k
  | none => none

/-- View a decoded value as a string. -/
def asStr : Option JValue → Option String
  | some (JValue.str s) => some s
  | _ => none

/-- View a decoded value as a number. -/
def asNum : Option JValue → Option ℚ
  | some (JValue.num q) => some q
  | _ => none

def numList : List JValue → Option (List ℚ)
  | [] => some []
  | JValue.num q :: vs =>
    match numList vs with
    | some qs => some (q :: qs)
    | none => none
  | _ => none

/-- View a decoded value as a list of numbers. -/
def asNumList : Option JValue → Option (List ℚ)
  | some (JValue.arr vs) => numList vs
  | _ => none

/-! ## A small executable JSON parser

Model of the external JSON codec.  Recursive descent over the character
list, with a fuel argument bounding the nesting depth. -/

def skipWs : List Char → List Char
  | [] => []
  | c :: cs => if c = ' ' ∨ c = '\n' ∨ c = '\t' ∨ c = '\r' then skipWs cs else c :: cs

def digitVal (c : Char) : ℕ := c.toNat - '0'.toNat

def takeDigits : List Char → List Char × List Char
  | [] => ([], [])
  | c :: cs =>
    if c.isDigit then
      let (ds, rest) := takeDigits cs
      (c :: ds, rest)
    else ([], c :: cs)

def natOfDigits (ds : List Char) : ℕ := ds.foldl (fun acc c => 10 * acc + digitVal c) 0

/-- Parse a JSON number (also the grammar accepted by Python's `float`):
optional sign, integer part, optional fraction, optional exponent.  Returns
the exact rational value and the remaining input.  The value is assembled
with integer arithmetic and a single `mkRat`, so concrete runs reduce. -/
def parseNumber (cs : List Char) : Option (ℚ × List Char) :=
  let (neg, cs₁) :=
    match cs with
    | '-' :: rest => (true, rest)
    | _ => (false, cs)
  let (ip, cs₂) := takeDigits cs₁
  if ip = [] then none
  else
    let (fp, cs₃) :=
      match cs₂ with
      | '.' :: rest =>
        let (ds, rest') := takeDigits rest
        (ds, rest')
      | _ => ([], cs₂)
    let expPart : Option (ℤ × List Char) :=
      match cs₃ with
      | 'e' :: rest | 'E' :: rest =>
        let (eneg, rest₁) :=
          match rest with
          | '-' :: r => (true, r)
          | '+' :: r => (false, r)
          | _ => (false, rest)
        let (eds, rest₂) := takeDigits rest₁
        if eds = [] then none
        else some (if eneg then -(natOfDigits eds : ℤ) else (natOfDigits eds : ℤ), rest₂)
      | _ => some (0, cs₃)
    match expPart with
    | none => none
    | some (e, cs₄) =>
      let mantissa : ℤ := natOfDigits ip * 10 ^ fp.length + natOfDigits fp
      let mantissa := if neg then -mantissa else mantissa
      let q : ℚ :=
        if 0 ≤ e then mkRat (mantissa * 10 ^ e.toNat) (10 ^ fp.length)
        else mkRat mantissa (10 ^ fp.length * 10 ^ (-e).toNat)
      some (q, cs₄)

def hexVal (c : Char) : Option ℕ :=
  if c.isDigit then some (digitVal c)
  else if 'a' ≤ c ∧ c ≤ 'f' then some (c.toNat - 'a'.toNat + 10)
  else if 'A' ≤ c ∧ c ≤ 'F' then some (c.toNat - 'A'.toNat + 10)
  else none

/-- Parse the body of a JSON string literal (after the opening quote),
handling the escape sequences of the JSON grammar.  `\uXXXX` escapes are
accepted for non-surrogate code points. -/
def parseStringBody : List Char → Option (List Char × List Char)
  | [] => none
  | '"' :: cs => some ([], cs)
  | '\\' :: 'u' :: h₁ :: h₂ :: h₃ :: h₄ :: cs =>
    match hexVal h₁, hexVal h₂, hexVal h₃, hexVal h₄ with
    | some v₁, some v₂, some v₃, some v₄ =>
      let n := ((v₁ * 16 + v₂) * 16 + v₃) * 16 + v₄
      if 0xD800 ≤ n ∧ n ≤ 0xDFFF then none
      else
        match parseStringBody cs with
        | some (body, rest) => some (Char.ofNat n :: body, rest)
        | none => none
    | _, _, _, _ => none
  | '\\' :: e :: cs =>
    let ec : Option Char :=
      match e with
      | '"' => some '"'
      | '\\' => some '\\'
      | '/' => some '/'
      | 'n' => some '\n'
      | 't' => some '\t'
      | 'r' => some '\r'
      | 'b' => some (Char.ofNat 8)
      | 'f' => some (Char.ofNat 12)
      | _ => none
    match ec with
    | some c =>
      match parseStringBody cs with
      | some (body, rest) => some (c :: body, rest)
      | none => none
    | none => none
  | c :: cs =>
    match parseStringBody cs with
    | some (body, rest) => some (c :: body, rest)
    | none => none

mutual

/-- Parse one JSON value.  The fuel argument decreases at every recursive
call; the top-level entry point supplies fuel exceeding what the input can
consume. -/
def parseValue : ℕ → List Char → Option (JValue × List Char)
  | 0, _ => none
  | fuel + 1, cs₀ =>
    match skipWs cs₀ with
    | [] => none
    | c :: cs =>
      if c = '"' then
        match parseStringBody cs with
        | some (body, rest) => some (JValue.str (String.mk body), rest)
        | none => none
      else if c = 't' then
        match cs with
        | 'r' :: 'u' :: 'e' :: rest => some (JValue.boolean true, rest)
        | _ => none
      else if c = 'f' then
        match cs with
        | 'a' :: 'l' :: 's' :: 'e' :: rest => some (JValue.boolean false, rest)
        | _ => none
      else if c = 'n' then
        match cs with
        | 'u' :: 'l' :: 'l' :: rest => some (JValue.null, rest)
        | _ => none
      else if c = '[' then
        match skipWs cs with
        | ']' :: rest => some (JValue.arr [], rest)
        | cs' =>
          match parseElems fuel cs' with
          | some (elems, rest) => some (JValue.arr elems, rest)
          | none => none
      else if c = '\x7b' then
        match skipWs cs with
        | '\x7d' :: rest => some (JValue.obj [], rest)
        | cs' =>
          match parseFields fuel cs' with
          | some (fields, rest) => some (JValue.obj fields, rest)
          | none => none
      else
        match parseNumber (c :: cs) with
        | some (q, rest) => some (JValue.num q, rest)
        | none => none

/-- Parse the comma-separated elements of a nonempty JSON array, consuming
the closing bracket. -/
def parseElems : ℕ → List Char → Option (List JValue × List Char)
  | 0, _ => none
  | fuel + 1, cs =>
    match parseValue fuel cs with
    | none => none
    | some (v, rest) =>
      match skipWs rest with
      | ',' :: rest' =>
        match parseElems fuel rest' with
        | some (vs, rest'') => some (v :: vs, rest'')
        | none => none
      | ']' :: rest' => some ([v], rest')
      | _ => none

/-- Parse the comma-separated `"key": value` fields of a nonempty JSON
object, consuming the closing brace. -/
def parseFields : ℕ → List Char → Option (List (String × JValue) × List Char)
  | 0, _ => none
  | fuel + 1, cs =>
    match skipWs cs with
    | '"' :: cs' =>
      match parseStringBody cs' with
      | none => none
      | some (key, rest) =>
        match skipWs rest with
        | ':' :: rest' =>
          match parseValue fuel rest' with
          | none => none
          | some (v, rest'') =>
            match skipWs rest'' with
            | ',' :: rest₃ =>
              match parseFields fuel rest₃ with
              | some (fs, rest₄) => some ((String.mk key, v) :: fs, rest₄)
              | none => none
            | '\x7d' :: rest₃ => some ([(String.mk key, v)], rest₃)
            | _ => none
        | _ => none
    | _ => none

end

/-- Top-level JSON decoding of a whole string: parse one value and require
only trailing whitespace. -/
def jsonParse (s : String) : Option JValue :=
  match parseValue (s.length + 1) s.toList with
  | some (v, rest) => if skipWs rest = [] then some v else none
  | none => none

/-! ## Metadata schemas

Transcribed from `setup_ts_with_schema` in `python/test_json_metadata.py`:
the schema dictionaries installed on the individuals and mutations tables. -/

inductive JsonSchemaType where
  | string
  | array
  | number
deriving DecidableEq

structure MetadataSchema where
  codec : String
  schemaType : String
  name : String
  properties : List (String × JsonSchemaType)
  additionalProperties : Bool
deriving DecidableEq

/-- The schema installed on the individuals table by `setup_ts_with_schema`. -/
def individualsMetadataSchema : MetadataSchema :=
  ⟨"json", "object", "Individual metadata",
    [("name", JsonSchemaType.string), ("phenotypes", JsonSchemaType.array)], false⟩

/-- The schema installed on the mutations table by `setup_ts_with_schema`
(whose `name` entry also reads "Individual metadata" in the source). -/
def mutationsMetadataSchema : MetadataSchema :=
  ⟨"json", "object", "Individual metadata",
    [("effect_size", JsonSchemaType.number), ("dominance", JsonSchemaType.number)], false⟩

def matchesSchemaType : JsonSchemaType → JValue → Bool
  | JsonSchemaType.string, JValue.str _ => true
  | JsonSchemaType.array, JValue.arr _ => true
  | JsonSchemaType.number, JValue.num _ => true
  | _, _ => false

/-- Schema validation for the object schemas used here: the value must be an
object, each field must match its declared type, and undeclared fields are
admitted only when `additionalProperties` is true. -/
def validates (sch : MetadataSchema) (v : JValue) : Bool :=
  match v with
  | JValue.obj fields =>
    fields.all fun kv =>
      match sch.properties.lookup kv.1 with
      | some t => matchesSchemaType t kv.2
      | none => sch.additionalProperties
  | _ => false

/-- Model of the external library's schema-driven JSON metadata codec:
`ts.individual(0).metadata` / `ts.mutation(0).metadata` when a schema is
installed decodes the raw blob as JSON and validates it against the
schema. -/
def schemaJsonDecode (sch : MetadataSchema) (blob : String) : Option JValue :=
  match jsonParse blob with
  | some v => if validates sch v then some v else none
  | none => none

/-- Model of `eval(ts.individual(0).metadata)` in the without-schema tests:
Python's `eval` applied to the raw blob.  For the blobs appearing here —
dict literals of string keys, numbers and number lists — Python's literal
grammar coincides with JSON, so the JSON parser is its model. -/
def pythonEvalDecode (blob : String) : Option JValue :=
  jsonParse blob

/-! ## The metadata payloads

Modelled from the spec: the tree-sequence files `with_json_metadata.trees`
and `with_bincode_metadata.trees` are produced by `examples/json_metadata.rs`
and the bincode example of this repository, which are not part of this
source set; the tests' comments state that the assertions rely on knowing
what those examples wrote.  The payloads below are the encodings of the
fixed values the spec names: individual metadata with name "Jerome" and
phenotypes [0, 1, 2, 0], mutation metadata with effect_size -1e-3 and
dominance 0.1. -/

/-- Modelled from the spec: the raw metadata blob of individual 0 of
`with_json_metadata.trees`, a JSON encoding of the fixed name and
phenotype sequence. -/
def jsonIndividualMetadataBlob : String :=
  "\x7b\"name\": \"Jerome\", \"phenotypes\": [0, 1, 2, 0]\x7d"

/-- Modelled from the spec: the raw metadata blob of mutation 0 of
`with_json_metadata.trees`, a JSON encoding of the fixed effect size and
dominance. -/
def jsonMutationMetadataBlob : String :=
  "\x7b\"effect_size\": -0.001, \"dominance\": 0.1\x7d"

/-! ## Bincode decoding

Model of `tskit_glue.decode_bincode_individual_metadata` and
`tskit_glue.decode_bincode_mutation_metadata` (repository glue code not in
this source set), modelled from the spec as bincode deserialization with the
default configuration: little-endian fixed-width integers and floats, `u64`
byte lengths for strings and sequences. -/

def readBytes (n : ℕ) (bs : List ℕ) : Option (List ℕ × List ℕ) :=
  if n ≤ bs.length then some (bs.take n, bs.drop n) else none

/-- Little-endian value of a byte list. -/
def leVal (bs : List ℕ) : ℕ := bs.foldr (fun b acc => b + 256 * acc) 0

def readU64LE (bs : List ℕ) : Option (ℕ × List ℕ) :=
  match readBytes 8 bs with
  | some (w, rest) => some (leVal w, rest)
  | none => none

/-- Two's-complement interpretation of 32 bits. -/
def i32OfBits (n : ℕ) : ℤ := if n < 2 ^ 31 then (n : ℤ) else (n : ℤ) - 2 ^ 32

def readI32LE (bs : List ℕ) : Option (ℤ × List ℕ) :=
  match readBytes 4 bs with
  | some (w, rest) => some (i32OfBits (leVal w), rest)
  | none => none

def readI32List : ℕ → List ℕ → Option (List ℤ × List ℕ)
  | 0, bs => some ([], bs)
  | n + 1, bs =>
    match readI32LE bs with
    | some (v, rest) =>
      match readI32List n rest with
      | some (vs, rest') => some (v :: vs, rest')
      | none => none
    | none => none

def utf8IsCont (b : ℕ) : Bool := 0x80 ≤ b ∧ b ≤ 0xBF

/-- Decode one UTF-8 encoded code point, rejecting overlong forms,
surrogates and out-of-range values. -/
def utf8DecodeOne : List ℕ → Option (ℕ × List ℕ)
  | [] => none
  | b :: bs =>
    if b < 0x80 then some (b, bs)
    else if 0xC2 ≤ b ∧ b ≤ 0xDF then
      match bs with
      | b₂ :: rest =>
        if utf8IsCont b₂ then some ((b - 0xC0) * 0x40 + (b₂ - 0x80), rest) else none
      | _ => none
    else if 0xE0 ≤ b ∧ b ≤ 0xEF then
      match bs with
      | b₂ :: b₃ :: rest =>
        if utf8IsCont b₂ ∧ utf8IsCont b₃ then
          let cp := (b - 0xE0) * 0x1000 + (b₂ - 0x80) * 0x40 + (b₃ - 0x80)
          if 0x800 ≤ cp ∧ ¬(0xD800 ≤ cp ∧ cp ≤ 0xDFFF) then some (cp, rest) else none
        else none
      | _ => none
    else if 0xF0 ≤ b ∧ b ≤ 0xF4 then
      match bs with
      | b₂ :: b₃ :: b₄ :: rest =>
        if utf8IsCont b₂ ∧ utf8IsCont b₃ ∧ utf8IsCont b₄ then
          let cp := (b - 0xF0) * 0x40000 + (b₂ - 0x80) * 0x1000 + (b₃ - 0x80) * 0x40 + (b₄ - 0x80)
          if 0x10000 ≤ cp ∧ cp ≤ 0x10FFFF then some (cp, rest) else none
        else none
      | _ => none
    else none

def utf8DecodeAux : ℕ → List ℕ → Option (List Char)
  | _, [] => some []
  | 0, _ :: _ => none
  | fuel + 1, bs =>
    match utf8DecodeOne bs with
    | some (cp, rest) =>
      match utf8DecodeAux fuel rest with
      | some cs => some (Char.ofNat cp :: cs)
      | none => none
    | none => none

def utf8Decode (bs : List ℕ) : Option (List Char) := utf8DecodeAux bs.length bs

/-- Exact rational value of an IEEE-754 binary64 bit pattern; `none` for
infinities and NaNs. -/
def f64FromBits (bits : ℕ) : Option ℚ :=
  let s : ℕ := bits / 2 ^ 63
  let e : ℕ := bits / 2 ^ 52 % 2 ^ 11
  let m : ℕ := bits % 2 ^ 52
  if e = 2047 then none
  else
    let magNumDen : ℤ × ℕ :=
      if e = 0 then ((m : ℤ), 2 ^ 1074)
      else if e ≤ 1075 then ((2 ^ 52 + m : ℕ), 2 ^ (1075 - e))
      else (((2 ^ 52 + m : ℕ) : ℤ) * 2 ^ (e - 1075), 1)
    some (mkRat (if s = 1 then -magNumDen.1 else magNumDen.1) magNumDen.2)

def readF64LE (bs : List ℕ) : Option (ℚ × List ℕ) :=
  match readBytes 8 bs with
  | some (w, rest) =>
    match f64FromBits (leVal w) with
    | some q => some (q, rest)
    | none => none
  | none => none

structure IndividualMetadata where
  name : String
  phenotypes : List ℤ
deriving DecidableEq

structure MutationMetadata where
  effect_size : ℚ
  dominance : ℚ
deriving DecidableEq

/-- Modelled from the spec: `tskit_glue.decode_bincode_individual_metadata`,
bincode deserialization of a record of a string and an `i32` sequence. -/
def decode_bincode_individual_metadata (bytes : List ℕ) : Option IndividualMetadata :=
  match readU64LE bytes with
  | none => none
  | some (n, rest) =>
    match readBytes n rest with
    | none => none
    | some (sb, rest₁) =>
      match utf8Decode sb with
      | none => none
      | some cs =>
        match readU64LE rest₁ with
        | none => none
        | some (m, rest₂) =>
          match readI32List m rest₂ with
          | some (ph, _) => some ⟨String.mk cs, ph⟩
          | none => none

/-- Modelled from the spec: `tskit_glue.decode_bincode_mutation_metadata`,
bincode deserialization of a record of two `f64` fields. -/
def decode_bincode_mutation_metadata (bytes : List ℕ) : Option MutationMetadata :=
  match readF64LE bytes with
  | some (es, rest) =>
    match readF64LE rest with
    | some (d, _) => some ⟨es, d⟩
    | none => none
  | none => none

/-- Modelled from the spec: the raw metadata blob of individual 0 of
`with_bincode_metadata.trees` — the bincode encoding of name "Jerome" and
phenotypes [0, 1, 2, 0]. -/
def bincodeIndividualMetadataBlob : List ℕ :=
  [6, 0, 0, 0, 0, 0, 0, 0,
   74, 101, 114, 111, 109, 101,
   4, 0, 0, 0, 0, 0, 0, 0,
   0, 0, 0, 0, 1, 0, 0, 0, 2, 0, 0, 0, 0, 0, 0, 0]

/-- Modelled from the spec: the raw metadata blob of mutation 0 of
`with_bincode_metadata.trees` — the bincode encoding of the binary64
values of -1e-3 and 0.1. -/
def bincodeMutationMetadataBlob : List ℕ :=
  [252, 169, 241, 210, 77, 98, 80, 191,
   154, 153, 153, 153, 153, 153, 185, 63]

/-- `numpy.isclose` with its default tolerances, over exact rationals:
`|a - b| <= atol + rtol * |b|` with `atol = 1e-8` and `rtol = 1e-5`. -/
def npIsClose (a b : ℚ) : Prop := |a - b| ≤ 1 / 10 ^ 8 + 1 / 10 ^ 5 * |b|

/-! ## The argument parser of `makedata.py`

Transcription of `makedataArgSpecs` and of the behaviour of `parse_args` on the
flag-only parser it builds: every declared argument is optional, each value
is converted by the declared type, and an absent flag receives its declared
default (`None` when the declaration gives none, as for `--nsamples`). -/

inductive PyVal where
  | int (i : ℤ)
  | float (x : ℚ)
  | str (s : String)
  | none
deriving DecidableEq

inductive PyType where
  | int
  | float
  | str
deriving DecidableEq

structure ArgSpec where
  flag : String
  type : PyType
  default : PyVal
  help : String
deriving DecidableEq

/-- Transcribed from `make_parser` in `makedata.py`.  The float defaults
`1e8` and `1e-9` are the rationals 100000000 and 1/1000000000. -/
def makedataArgSpecs : List ArgSpec :=
  [⟨"--nsamples", PyType.int, PyVal.none, "Number of diploid samples"⟩,
   ⟨"--seqlen", PyType.float, PyVal.float (mkRat 100000000 1), "sequence length"⟩,
   ⟨"--recrate", PyType.float, PyVal.float (mkRat 1 1000000000),
     "Rec rate per \"base pair\""⟩,
   ⟨"--popsize", PyType.int, PyVal.int 10000, "Population size"⟩,
   ⟨"--treefile", PyType.str, PyVal.str "treefile.trees", "Output file name"⟩]

/-- Python's `int()` on a decimal string: optional sign, then digits. -/
def intOfString (s : String) : Option ℤ :=
  match s.toList with
  | '-' :: ds =>
    if ds ≠ [] ∧ ds.all Char.isDigit then some (-(natOfDigits ds : ℤ)) else Option.none
  | ds =>
    if ds ≠ [] ∧ ds.all Char.isDigit then some (natOfDigits ds : ℤ) else Option.none

/-- Python's `float()` on a numeric string, for the sign/digits/fraction/
exponent forms (the special names `inf` and `nan` are not modelled). -/
def floatOfString (s : String) : Option ℚ :=
  match parseNumber s.toList with
  | some (q, []) => some q
  | _ => Option.none

/-- Conversion of a command-line token by an argument's declared type. -/
def convertValue : PyType → String → Option PyVal
  | PyType.int, s =>
    match intOfString s with
    | some i => some (PyVal.int i)
    | Option.none => Option.none
  | PyType.float, s =>
    match floatOfString s with
    | some q => some (PyVal.float q)
    | Option.none => Option.none
  | PyType.str, s => some (PyVal.str s)

/-- Split the command line into flag/value pairs.  A token that is not a
declared flag, or a declared flag with no following value, is rejected —
`argparse` exits with a usage error there. -/
def tokenize (specs : List ArgSpec) : List String → Option (List (String × String))
  | [] => some []
  | [_] => Option.none
  | tok :: val :: rest =>
    if specs.any fun s => s.flag = tok then
      match tokenize specs rest with
      | some pairs => some ((tok, val) :: pairs)
      | Option.none => Option.none
    else Option.none

/-- The attribute name `argparse` derives from a `--flag`. -/
def destOf (flag : String) : String := flag.drop 2

/-- Build the parsed namespace: each declared argument gets the converted
given value when its flag occurs, and its declared default otherwise. -/
def fillArgs : List ArgSpec → List (String × String) → Option (List (String × PyVal))
  | [], _ => some []
  | spec :: rest, pairs =>
    match pairs.lookup spec.flag with
    | some raw =>
      match convertValue spec.type raw with
      | some v =>
        match fillArgs rest pairs with
        | some ns => some ((destOf spec.flag, v) :: ns)
        | Option.none => Option.none
      | Option.none => Option.none
    | Option.none =>
      match fillArgs rest pairs with
      | some ns => some ((destOf spec.flag, spec.default) :: ns)
      | Option.none => Option.none

/-- `parser.parse_args(sys.argv[1:])`: `none` models the `SystemExit` that
`argparse` raises on a bad command line. -/
def parse_args (specs : List ArgSpec) (argv : List String) :
    Option (List (String × PyVal)) :=
  match tokenize specs argv with
  | some pairs => fillArgs specs pairs
  | Option.none => Option.none

/-- `args.name` attribute access on the parsed namespace. -/
def pyattr (ns : List (String × PyVal)) (k : String) : PyVal :=
  (ns.lookup k).getD PyVal.none

def pyStrOf : PyVal → String
  | PyVal.str s => s
  | _ => ""

/-! ## The `main` of `makedata.py` as an effect trace -/

structure TreeSequence where
  num_trees : ℕ
deriving DecidableEq

/-- The keyword arguments `main` passes to `msprime.sim_ancestry`. -/
structure SimAncestryCall where
  samples : PyVal
  sequence_length : PyVal
  recombination_rate : PyVal
  population_size : PyVal
deriving DecidableEq

def simCallOf (ns : List (String × PyVal)) : SimAncestryCall :=
  ⟨pyattr ns "nsamples", pyattr ns "seqlen", pyattr ns "recrate", pyattr ns "popsize"⟩

/-- The observable actions of the scripts: writing a line to stdout,
dumping a tree sequence to a named file, loading a named file. -/
inductive Effect where
  | print (s : String)
  | dump (file : String) (ts : TreeSequence)
  | load (file : String)
deriving DecidableEq

/-- Transcription of `main` in `makedata.py`.  The external simulator is an
oracle that either returns a tree sequence or raises; the script installs no
handler, so a raise becomes the script's own outcome unchanged.  On success
the trace is the `print` of the tree count followed by the `dump` to the
file named by `--treefile`. -/
def makedata_main (argv : List String)
    (sim : SimAncestryCall → Except String TreeSequence) :
    List Effect × Except String Unit :=
  match parse_args makedataArgSpecs argv with
  | Option.none => ([], Except.error "SystemExit")
  | some ns =>
    match sim (simCallOf ns) with
    | Except.error e => ([], Except.error e)
    | Except.ok ts =>
      ([Effect.print (toString ts.num_trees),
        Effect.dump (pyStrOf (pyattr ns "treefile")) ts], Except.ok ())

/-! ## The `python_scripts/read_tablesfile.py` script -/

/-- A loaded table collection as that script uses it: only the population
table is touched, and each row is abstracted by its printed form. -/
structure TableCollectionFile where
  populations : List String
deriving DecidableEq

/-- Transcription of the module body of `read_tablesfile.py`: for each file
name on the command line, load it and print every population record.  The
external loader is an oracle; a raise stops the script there with that
error. -/
def read_tablesfile (files : List String)
    (load : String → Except String TableCollectionFile) :
    List Effect × Except String Unit :=
  match files with
  | [] => ([], Except.ok ())
  | f :: rest =>
    match load f with
    | Except.error e => ([Effect.load f], Except.error e)
    | Except.ok tables =>
      let (tr, r) := read_tablesfile rest load
      (Effect.load f :: tables.populations.map Effect.print ++ tr, r)

/-! ## The table mutation of `setup_ts_with_schema` -/

structure TableWithSchema (ρ : Type) where
  rows : List ρ
  metadata_schema : Option MetadataSchema

/-- The tables of a tree sequence, with rows of every table abstract: the
test setup never inspects or constructs a row. -/
structure TableCollection (ρ : Type) where
  individuals : TableWithSchema ρ
  mutations : TableWithSchema ρ
  nodes : List ρ
  edges : List ρ
  sites : List ρ
  populations : List ρ
  migrations : List ρ
  provenances : List ρ

structure TreeSequenceTables (ρ : Type) where
  tables : TableCollection ρ

/-- Transcription of `setup_ts_with_schema` in `python/test_json_metadata.py`:
take the tables of the loaded tree sequence, assign the two metadata
schemas, and rebuild a tree sequence from the tables. -/
def setup_ts_with_schema (ρ : Type) (ts : TreeSequenceTables ρ) : TreeSequenceTables ρ :=
  let tables := ts.tables
  let tables₁ : TableCollection ρ :=
    ⟨⟨tables.individuals.rows, some individualsMetadataSchema⟩,
     tables.mutations, tables.nodes, tables.edges, tables.sites,
     tables.populations, tables.migrations, tables.provenances⟩
  let tables₂ : TableCollection ρ :=
    ⟨tables₁.individuals,
     ⟨tables₁.mutations.rows, some mutationsMetadataSchema⟩,
     tables₁.nodes, tables₁.edges, tables₁.sites,
     tables₁.populations, tables₁.migrations, tables₁.provenances⟩
  ⟨tables₂⟩

/-! ## The metadata decode sites of the test modules -/

inductive DecodeMechanism where
  | schemaJsonCodec
  | bincodeDecoder
  | pythonEval
deriving DecidableEq

structure MetadataReadSite where
  sourceFile : String
  test : String
  mechanism : DecodeMechanism
deriving DecidableEq

/-- Every place a metadata byte blob is read and decoded in this
repository's scripts, with the mechanism the source uses there. -/
def metadataReadSites : List MetadataReadSite :=
  [⟨"python/test_json_metadata.py", "test_individual_metadata",
     DecodeMechanism.schemaJsonCodec⟩,
   ⟨"python/test_json_metadata.py", "test_individual_metadata_without_schema",
     DecodeMechanism.pythonEval⟩,
   ⟨"python/test_json_metadata.py", "test_mutation_metadata",
     DecodeMechanism.schemaJsonCodec⟩,
   ⟨"python/test_json_metadata.py", "test_mutation_metadata_without_schema",
     DecodeMechanism.pythonEval⟩,
   ⟨"python/test_bincode_metadata.py", "test_individual_metadata",
     DecodeMechanism.bincodeDecoder⟩,
   ⟨"python/test_bincode_metadata.py", "test_mutation_metadata",
     DecodeMechanism.bincodeDecoder⟩]

/-! ## Concrete instances used to exercise the theorems -/

/-- The namespace `parse_args` produces for an empty command line: every
argument at its declared default. -/
def defaultNamespace : List (String × PyVal) :=
  [("nsamples", PyVal.none),
   ("seqlen", PyVal.float (mkRat 100000000 1)),
   ("recrate", PyVal.float (mkRat 1 1000000000)),
   ("popsize", PyVal.int 10000),
   ("treefile", PyVal.str "treefile.trees")]

/-- A loader oracle whose first file loads and whose others raise. -/
def loadProbe : String → Except String TableCollectionFile :=
  fun f => if f = "a" then Except.ok ⟨["pop0"]⟩ else Except.error "FileNotFoundError"

/-- Concrete table collections keyed by file name. -/
def tcofProbe : String → TableCollectionFile :=
  fun f => if f = "x" then ⟨["p1", "p2"]⟩ else ⟨["q1"]⟩

/-- A loader oracle that always succeeds with `tcofProbe`. -/
def loadOk : String → Except String TableCollectionFile :=
  fun f => Except.ok (tcofProbe f)

/-! ## Helper lemmas -/

theorem npIsClose_of_abs (a b c : ℚ) (hc : |b| = c)
    (h₁ : a - b ≤ 1 / 10 ^ 8 + 1 / 10 ^ 5 * c)
    (h₂ : b - a ≤ 1 / 10 ^ 8 + 1 / 10 ^ 5 * c) : npIsClose a b := by
  rw [npIsClose, hc, abs_sub_le_iff]
  exact ⟨h₁, h₂⟩

/-- Every flag/value pair accepted by `tokenize` has its flag among the
command-line tokens. -/
theorem tokenize_mem (specs : List ArgSpec) :
    ∀ (argv : List String) (pairs : List (String × String)),
      tokenize specs argv = some pairs → ∀ p ∈ pairs, p.1 ∈ argv
  | [], pairs, h => by
    simp only [tokenize, Option.some.injEq] at h
    subst h
    simp
  | [tok], pairs, h => by
    simp [tokenize] at h
  | tok :: val :: rest, pairs, h => by
    simp only [tokenize] at h
    split at h
    · cases hrec : tokenize specs rest with
      | none => rw [hrec] at h; exact absurd h (by simp)
      | some ps =>
        rw [hrec] at h
        simp only [Option.some.injEq] at h
        subst h
        intro p hp
        rcases List.mem_cons.1 hp with rfl | hp'
        · simp
        · have := tokenize_mem specs rest ps hrec p hp'
          simp [this, List.mem_cons]
    · exact absurd h (by simp)

/-- Every flag/value pair accepted by `tokenize` has a declared flag. -/
theorem tokenize_declared (specs : List ArgSpec) :
    ∀ (argv : List String) (pairs : List (String × String)),
      tokenize specs argv = some pairs →
      ∀ p ∈ pairs, (specs.any fun s => s.flag = p.1) = true
  | [], pairs, h => by
    simp only [tokenize, Option.some.injEq] at h
    subst h
    simp
  | [tok], pairs, h => by
    simp [tokenize] at h
  | tok :: val :: rest, pairs, h => by
    simp only [tokenize] at h
    split at h
    · cases hrec : tokenize specs rest with
      | none => rw [hrec] at h; exact absurd h (by simp)
      | some ps =>
        rw [hrec] at h
        simp only [Option.some.injEq] at h
        subst h
        intro p hp
        rcases List.mem_cons.1 hp with rfl | hp'
        · assumption
        · exact tokenize_declared specs rest ps hrec p hp'
    · exact absurd h (by simp)

/-- A key absent from a pair list is not found by `List.lookup`. -/
theorem lookup_none_of_not_mem {β : Type} (k : String) :
    ∀ (pairs : List (String × β)), (∀ v, (k, v) ∉ pairs) →
      pairs.lookup k = Option.none
  | [], _ => rfl
  | (k', v') :: rest, h => by
    have hne : k ≠ k' := by
      intro hk
      exact h v' (by rw [hk]; exact List.mem_cons_self _ _)
    have hrec := lookup_none_of_not_mem k rest fun v hv => h v (List.mem_cons_of_mem _ hv)
    have hbeq : (k == k') = false := beq_eq_false_iff_ne.2 hne
    simp [List.lookup, hrec, hbeq]

/-- Peeling one argument off `fillArgs`: the head of the namespace is the
head spec's destination, with the declared default when the flag was not
given. -/
theorem fillArgs_cons (spec : ArgSpec) (rest : List ArgSpec)
    (pairs : List (String × String)) (ns : List (String × PyVal)) :
    fillArgs (spec :: rest) pairs = some ns →
    ∃ v ns', ns = (destOf spec.flag, v) :: ns' ∧ fillArgs rest pairs = some ns' ∧
      (pairs.lookup spec.flag = Option.none → v = spec.default) := by
  intro h
  cases hl : pairs.lookup spec.flag with
  | none =>
    simp only [fillArgs, hl] at h
    cases hr : fillArgs rest pairs with
    | none => rw [hr] at h; exact absurd h (by simp)
    | some ns' =>
      rw [hr] at h
      simp only [Option.some.injEq] at h
      exact ⟨spec.default, ns', h.symm, rfl, fun _ => rfl⟩
  | some raw =>
    simp only [fillArgs, hl] at h
    cases hc : convertValue spec.type raw with
    | none => rw [hc] at h; exact absurd h (by simp)
    | some v =>
      rw [hc] at h
      cases hr : fillArgs rest pairs with
      | none => rw [hr] at h; exact absurd h (by simp)
      | some ns' =>
        rw [hr] at h
        simp only [Option.some.injEq] at h
        exact ⟨v, ns', h.symm, rfl, fun hkn => absurd hkn (by simp)⟩

/-! ## The claims -/

set_option maxHeartbeats 4000000 in
/-- C1: for the individual record at index 0 of the loaded file, each
decoding path the tests use — JSON through the installed schema, JSON
without a schema via `eval`, and bincode via `tskit_glue` — yields metadata
whose name is "Jerome" and whose phenotypes are [0, 1, 2, 0]. -/
theorem individual_metadata_fixed_values :
    (asStr (fieldOf (schemaJsonDecode individualsMetadataSchema jsonIndividualMetadataBlob)
        "name") = some "Jerome"
      ∧ asNumList (fieldOf (schemaJsonDecode individualsMetadataSchema jsonIndividualMetadataBlob)
        "phenotypes") = some [0, 1, 2, 0])
    ∧ (asStr (fieldOf (pythonEvalDecode jsonIndividualMetadataBlob) "name") = some "Jerome"
      ∧ asNumList (fieldOf (pythonEvalDecode jsonIndividualMetadataBlob) "phenotypes")
        = some [0, 1, 2, 0])
    ∧ decode_bincode_individual_metadata bincodeIndividualMetadataBlob
        = some ⟨"Jerome", [0, 1, 2, 0]⟩ :=
  ⟨⟨by decide, by decide⟩, ⟨by decide, by decide⟩, by decide⟩

set_option maxHeartbeats 4000000 in
/-- C2: for the mutation record at index 0 of the loaded file, each decoding
path the tests use yields metadata whose effect_size is within `numpy`
`isclose` tolerance of -1e-3 and whose dominance is within tolerance of
0.1. -/
theorem mutation_metadata_isclose :
    (∃ e, asNum (fieldOf (schemaJsonDecode mutationsMetadataSchema jsonMutationMetadataBlob)
        "effect_size") = some e ∧ npIsClose e (-1 / 1000))
    ∧ (∃ d, asNum (fieldOf (schemaJsonDecode mutationsMetadataSchema jsonMutationMetadataBlob)
        "dominance") = some d ∧ npIsClose d (1 / 10))
    ∧ (∃ e, asNum (fieldOf (pythonEvalDecode jsonMutationMetadataBlob) "effect_size")
        = some e ∧ npIsClose e (-1 / 1000))
    ∧ (∃ d, asNum (fieldOf (pythonEvalDecode jsonMutationMetadataBlob) "dominance")
        = some d ∧ npIsClose d (1 / 10))
    ∧ (∃ md, decode_bincode_mutation_metadata bincodeMutationMetadataBlob = some md
        ∧ npIsClose md.effect_size (-1 / 1000) ∧ npIsClose md.dominance (1 / 10)) := by
  have habsneg : |(-1 : ℚ) / 1000| = 1 / 1000 := by
    rw [abs_of_nonpos (by norm_num)]
    norm_num
  have habspos : |(1 : ℚ) / 10| = 1 / 10 := abs_of_nonneg (by norm_num)
  have hes : npIsClose (mkRat (-1) 1000) (-1 / 1000) := by
    refine npIsClose_of_abs _ _ (1 / 1000) habsneg ?_ ?_ <;>
      rw [Rat.mkRat_eq_divInt, Rat.divInt_eq_div] <;> norm_num
  have hdom : npIsClose (mkRat 1 10) (1 / 10) := by
    refine npIsClose_of_abs _ _ (1 / 10) habspos ?_ ?_ <;>
      rw [Rat.mkRat_eq_divInt, Rat.divInt_eq_div] <;> norm_num
  have hesb : npIsClose (mkRat (-1152921504606847) 1152921504606846976) (-1 / 1000) := by
    refine npIsClose_of_abs _ _ (1 / 1000) habsneg ?_ ?_ <;>
      rw [Rat.mkRat_eq_divInt, Rat.divInt_eq_div] <;> norm_num
  have hdomb : npIsClose (mkRat 3602879701896397 36028797018963968) (1 / 10) := by
    refine npIsClose_of_abs _ _ (1 / 10) habspos ?_ ?_ <;>
      rw [Rat.mkRat_eq_divInt, Rat.divInt_eq_div] <;> norm_num
  have h₁ : asNum (fieldOf (schemaJsonDecode mutationsMetadataSchema jsonMutationMetadataBlob)
      "effect_size") = some (mkRat (-1) 1000) := by decide
  have h₂ : asNum (fieldOf (schemaJsonDecode mutationsMetadataSchema jsonMutationMetadataBlob)
      "dominance") = some (mkRat 1 10) := by decide
  have h₃ : asNum (fieldOf (pythonEvalDecode jsonMutationMetadataBlob) "effect_size")
      = some (mkRat (-1) 1000) := by decide
  have h₄ : asNum (fieldOf (pythonEvalDecode jsonMutationMetadataBlob) "dominance")
      = some (mkRat 1 10) := by decide
  have h₅ : decode_bincode_mutation_metadata bincodeMutationMetadataBlob
      = some ⟨mkRat (-1152921504606847) 1152921504606846976,
              mkRat 3602879701896397 36028797018963968⟩ := by decide
  exact ⟨⟨_, h₁, hes⟩, ⟨_, h₂, hdom⟩, ⟨_, h₃, hes⟩, ⟨_, h₄, hdom⟩, ⟨_, h₅, hesb, hdomb⟩⟩

/-- C3 counterexample: it is not the case that every metadata read site
decodes through the schema-driven JSON codec or the external binary
decoder — the without-schema JSON tests decode the raw blob with Python's
builtin `eval`. -/
theorem metadata_codec_claim_false :
    ¬ ∀ s ∈ metadataReadSites,
        s.mechanism = DecodeMechanism.schemaJsonCodec ∨
        s.mechanism = DecodeMechanism.bincodeDecoder := by
  intro h
  have hm : (⟨"python/test_json_metadata.py", "test_individual_metadata_without_schema",
      DecodeMechanism.pythonEval⟩ : MetadataReadSite) ∈ metadataReadSites := by
    simp [metadataReadSites]
  rcases h _ hm with h' | h' <;> exact DecodeMechanism.noConfusion h'

/-- C3 (amended): every metadata byte blob read by this repository is
decoded by the schema-driven JSON codec, by the external structured binary
decoder, or by Python's builtin `eval` applied to the raw blob; the scripts
only assert on the decoded field values. -/
theorem metadata_decode_mechanisms :
    ∀ s ∈ metadataReadSites,
      s.mechanism = DecodeMechanism.schemaJsonCodec ∨
      s.mechanism = DecodeMechanism.bincodeDecoder ∨
      s.mechanism = DecodeMechanism.pythonEval := by
  intro s hs
  fin_cases hs <;> simp

/-- Witness for the amended C3 at a concrete site. -/
theorem metadata_decode_mechanisms_witness :
    ((⟨"python/test_bincode_metadata.py", "test_individual_metadata",
        DecodeMechanism.bincodeDecoder⟩ : MetadataReadSite) ∈ metadataReadSites)
    ∧ (DecodeMechanism.bincodeDecoder = DecodeMechanism.schemaJsonCodec ∨
       DecodeMechanism.bincodeDecoder = DecodeMechanism.bincodeDecoder ∨
       DecodeMechanism.bincodeDecoder = DecodeMechanism.pythonEval) :=
  ⟨by decide,
   metadata_decode_mechanisms
     ⟨"python/test_bincode_metadata.py", "test_individual_metadata",
       DecodeMechanism.bincodeDecoder⟩ (by decide)⟩

/-- C9: `setup_ts_with_schema` changes only the metadata schemas of the
individuals and mutations tables; the rows of every table of the returned
tree sequence equal those of the loaded one. -/
theorem setup_ts_with_schema_frame (ρ : Type) (ts : TreeSequenceTables ρ) :
    (setup_ts_with_schema ρ ts).tables.individuals.rows = ts.tables.individuals.rows
    ∧ (setup_ts_with_schema ρ ts).tables.mutations.rows = ts.tables.mutations.rows
    ∧ (setup_ts_with_schema ρ ts).tables.nodes = ts.tables.nodes
    ∧ (setup_ts_with_schema ρ ts).tables.edges = ts.tables.edges
    ∧ (setup_ts_with_schema ρ ts).tables.sites = ts.tables.sites
    ∧ (setup_ts_with_schema ρ ts).tables.populations = ts.tables.populations
    ∧ (setup_ts_with_schema ρ ts).tables.migrations = ts.tables.migrations
    ∧ (setup_ts_with_schema ρ ts).tables.provenances = ts.tables.provenances
    ∧ (setup_ts_with_schema ρ ts).tables.individuals.metadata_schema
        = some individualsMetadataSchema
    ∧ (setup_ts_with_schema ρ ts).tables.mutations.metadata_schema
        = some mutationsMetadataSchema :=
  ⟨rfl, rfl, rfl, rfl, rfl, rfl, rfl, rfl, rfl, rfl⟩

/-- C10: invoked with zero file arguments, the population-printing script
performs no load, prints nothing, and terminates normally. -/
theorem read_tablesfile_empty_args (load : String → Except String TableCollectionFile) :
    read_tablesfile [] load = ([], Except.ok ()) :=
  rfl

/-- C4: the parser declares exactly the five flags, every accepted pair uses
one of them, and on any successful parse an omitted flag receives its
default: 1e8 for seqlen, 1e-9 for recrate, 10000 for popsize,
"treefile.trees" for treefile. -/
theorem makedataArgSpecs_flags_and_defaults :
    (makedataArgSpecs.map (fun s => s.flag)
      = ["--nsamples", "--seqlen", "--recrate", "--popsize", "--treefile"])
    ∧ (∀ (argv : List String) (pairs : List (String × String)),
        tokenize makedataArgSpecs argv = some pairs →
        ∀ p ∈ pairs, p.1 ∈ ["--nsamples", "--seqlen", "--recrate", "--popsize", "--treefile"])
    ∧ (∀ (argv : List String) (ns : List (String × PyVal)),
        parse_args makedataArgSpecs argv = some ns →
        ("--seqlen" ∉ argv → ns.lookup "seqlen" = some (PyVal.float ((10 : ℚ) ^ 8)))
        ∧ ("--recrate" ∉ argv → ns.lookup "recrate" = some (PyVal.float (1 / (10 : ℚ) ^ 9)))
        ∧ ("--popsize" ∉ argv → ns.lookup "popsize" = some (PyVal.int 10000))
        ∧ ("--treefile" ∉ argv →
            ns.lookup "treefile" = some (PyVal.str "treefile.trees"))) := by
  refine ⟨rfl, ?_, ?_⟩
  · intro argv pairs ht p hp
    have hd := tokenize_declared makedataArgSpecs argv pairs ht p hp
    simp only [makedataArgSpecs, List.any_cons, List.any_nil, Bool.or_eq_true,
      decide_eq_true_eq, Bool.or_false] at hd
    rcases hd with h | h | h | h | h <;> rw [← h] <;> simp
  · intro argv ns hp
    rw [parse_args] at hp
    cases ht : tokenize makedataArgSpecs argv with
    | none => rw [ht] at hp; exact absurd hp (by simp)
    | some pairs =>
      rw [ht] at hp
      simp only [makedataArgSpecs] at hp
      obtain ⟨v₁, ns₁, rfl, hf₁, hd₁⟩ := fillArgs_cons _ _ _ _ hp
      obtain ⟨v₂, ns₂, rfl, hf₂, hd₂⟩ := fillArgs_cons _ _ _ _ hf₁
      obtain ⟨v₃, ns₃, rfl, hf₃, hd₃⟩ := fillArgs_cons _ _ _ _ hf₂
      obtain ⟨v₄, ns₄, rfl, hf₄, hd₄⟩ := fillArgs_cons _ _ _ _ hf₃
      obtain ⟨v₅, ns₅, rfl, hf₅, hd₅⟩ := fillArgs_cons _ _ _ _ hf₄
      have hnil : ns₅ = [] := by
        simpa [fillArgs] using hf₅.symm
      subst hnil
      refine ⟨?_, ?_, ?_, ?_⟩
      · intro hna
        have hln : pairs.lookup "--seqlen" = Option.none :=
          lookup_none_of_not_mem _ pairs fun v hv =>
            absurd (tokenize_mem makedataArgSpecs argv pairs ht _ hv) hna
        have hv : v₂ = PyVal.float (mkRat 100000000 1) := hd₂ hln
        show some v₂ = _
        rw [hv]
        have : (mkRat 100000000 1 : ℚ) = (10 : ℚ) ^ 8 := by
          rw [Rat.mkRat_one]
          norm_num
        rw [this]
      · intro hna
        have hln : pairs.lookup "--recrate" = Option.none :=
          lookup_none_of_not_mem _ pairs fun v hv =>
            absurd (tokenize_mem makedataArgSpecs argv pairs ht _ hv) hna
        have hv : v₃ = PyVal.float (mkRat 1 1000000000) := hd₃ hln
        show some v₃ = _
        rw [hv]
        have : (mkRat 1 1000000000 : ℚ) = 1 / (10 : ℚ) ^ 9 := by
          rw [Rat.mkRat_eq_divInt, Rat.divInt_eq_div]
          norm_num
        rw [this]
      · intro hna
        have hln : pairs.lookup "--popsize" = Option.none :=
          lookup_none_of_not_mem _ pairs fun v hv =>
            absurd (tokenize_mem makedataArgSpecs argv pairs ht _ hv) hna
        have hv : v₄ = PyVal.int 10000 := hd₄ hln
        show some v₄ = _
        rw [hv]
      · intro hna
        have hln : pairs.lookup "--treefile" = Option.none :=
          lookup_none_of_not_mem _ pairs fun v hv =>
            absurd (tokenize_mem makedataArgSpecs argv pairs ht _ hv) hna
        have hv : v₅ = PyVal.str "treefile.trees" := hd₅ hln
        show some v₅ = _
        rw [hv]

/-- Witness for C4 at concrete command lines. -/
theorem makedataArgSpecs_flags_and_defaults_witness :
    (tokenize makedataArgSpecs ["--seqlen", "2e7"] = some [("--seqlen", "2e7")])
    ∧ ("--seqlen", "2e7").1
        ∈ ["--nsamples", "--seqlen", "--recrate", "--popsize", "--treefile"]
    ∧ (parse_args makedataArgSpecs [] = some defaultNamespace)
    ∧ defaultNamespace.lookup "seqlen" = some (PyVal.float ((10 : ℚ) ^ 8))
    ∧ defaultNamespace.lookup "recrate" = some (PyVal.float (1 / (10 : ℚ) ^ 9))
    ∧ defaultNamespace.lookup "popsize" = some (PyVal.int 10000)
    ∧ defaultNamespace.lookup "treefile" = some (PyVal.str "treefile.trees") :=
  ⟨by decide,
   makedataArgSpecs_flags_and_defaults.2.1 ["--seqlen", "2e7"] [("--seqlen", "2e7")]
     (by decide) ("--seqlen", "2e7") (by simp),
   by decide,
   (makedataArgSpecs_flags_and_defaults.2.2 [] defaultNamespace (by decide)).1 (by simp),
   (makedataArgSpecs_flags_and_defaults.2.2 [] defaultNamespace (by decide)).2.1 (by simp),
   (makedataArgSpecs_flags_and_defaults.2.2 [] defaultNamespace (by decide)).2.2.1 (by simp),
   (makedataArgSpecs_flags_and_defaults.2.2 [] defaultNamespace (by decide)).2.2.2 (by simp)⟩

/-- C5: whenever the simulation call succeeds, `main` prints the tree count
and then dumps the tree sequence to the file named by treefile, and performs
no other output. -/
theorem makedata_success_trace (argv : List String) (ns : List (String × PyVal))
    (sim : SimAncestryCall → Except String TreeSequence) (ts : TreeSequence)
    (hp : parse_args makedataArgSpecs argv = some ns)
    (hs : sim (simCallOf ns) = Except.ok ts) :
    makedata_main argv sim =
      ([Effect.print (toString ts.num_trees),
        Effect.dump (pyStrOf (pyattr ns "treefile")) ts], Except.ok ()) := by
  simp only [makedata_main, hp, hs]

/-- Witness for C5 on the empty command line with a simulator returning a
seven-tree sequence. -/
theorem makedata_success_trace_witness :
    parse_args makedataArgSpecs [] = some defaultNamespace
    ∧ makedata_main [] (fun _ => Except.ok ⟨7⟩) =
        ([Effect.print (toString (TreeSequence.mk 7).num_trees),
          Effect.dump (pyStrOf (pyattr defaultNamespace "treefile")) ⟨7⟩],
         Except.ok ()) :=
  ⟨by decide,
   makedata_success_trace [] defaultNamespace (fun _ => Except.ok ⟨7⟩) ⟨7⟩ (by decide) rfl⟩

/-- C6: the scripts install no handler: an error raised by an external call
becomes the script's own outcome, with the same error value, and nothing is
retried or translated. -/
theorem errors_propagate_uncaught :
    (∀ (argv : List String) (ns : List (String × PyVal))
        (sim : SimAncestryCall → Except String TreeSequence) (e : String),
        parse_args makedataArgSpecs argv = some ns →
        sim (simCallOf ns) = Except.error e →
        makedata_main argv sim = ([], Except.error e))
    ∧ (∀ (pre : List String) (f : String) (rest : List String)
        (load : String → Except String TableCollectionFile) (e : String),
        (∀ g ∈ pre, ∃ tc, load g = Except.ok tc) →
        load f = Except.error e →
        (read_tablesfile (pre ++ f :: rest) load).2 = Except.error e) := by
  constructor
  · intro argv ns sim e hp hs
    simp only [makedata_main, hp, hs]
  · intro pre
    induction pre with
    | nil =>
      intro f rest load e _ hf
      simp only [List.nil_append, read_tablesfile, hf]
    | cons g pre ih =>
      intro f rest load e hok hf
      obtain ⟨tc, hg⟩ := hok g (List.mem_cons_self g pre)
      have hrec := ih f rest load e (fun x hx => hok x (List.mem_cons_of_mem g hx)) hf
      simp only [List.cons_append, read_tablesfile, hg]
      rcases hr : read_tablesfile (pre ++ f :: rest) load with ⟨tr, r⟩
      rw [hr] at hrec
      simpa using hrec

/-- Witness for C6: a failing simulator and a loader failing on the second
file. -/
theorem errors_propagate_uncaught_witness :
    parse_args makedataArgSpecs [] = some defaultNamespace
    ∧ makedata_main [] (fun _ => Except.error "ValueError") = ([], Except.error "ValueError")
    ∧ (read_tablesfile (["a"] ++ "b" :: []) loadProbe).2 = Except.error "FileNotFoundError" :=
  ⟨by decide,
   errors_propagate_uncaught.1 [] defaultNamespace (fun _ => Except.error "ValueError")
     "ValueError" (by decide) rfl,
   errors_propagate_uncaught.2 ["a"] "b" [] loadProbe "FileNotFoundError"
     (by
       intro g hg
       rw [List.mem_singleton] at hg
       subst hg
       exact ⟨⟨["pop0"]⟩, rfl⟩)
     rfl⟩

/-- C7: with every load succeeding, the script's trace is, file by file in
command-line order, the load of the file followed by one printed line per
population record in table order, and the script ends normally. -/
theorem read_tablesfile_prints_populations (files : List String)
    (tcof : String → TableCollectionFile)
    (load : String → Except String TableCollectionFile)
    (h : ∀ f ∈ files, load f = Except.ok (tcof f)) :
    read_tablesfile files load =
      ((files.map fun f => Effect.load f :: (tcof f).populations.map Effect.print).flatten,
        Except.ok ()) := by
  revert h
  induction files with
  | nil => intro h; rfl
  | cons f rest ih =>
    intro h
    have hf := h f (List.mem_cons_self f rest)
    have hrec := ih fun g hg => h g (List.mem_cons_of_mem f hg)
    simp only [read_tablesfile, hf, hrec, List.map_cons, List.flatten_cons]

/-- Witness for C7 on two files with two and one population records. -/
theorem read_tablesfile_prints_populations_witness :
    read_tablesfile ["x", "y"] loadOk =
      (((["x", "y"].map fun f =>
          Effect.load f :: (tcofProbe f).populations.map Effect.print).flatten),
        Except.ok ()) :=
  read_tablesfile_prints_populations ["x", "y"] tcofProbe loadOk fun _ _ => rfl

/-- C8: `--nsamples` is not required: any successful parse of a command line
omitting it binds nsamples to None, and None is what `main` forwards as the
sample count to the simulation call. -/
theorem nsamples_optional_forwarded (argv : List String) (ns : List (String × PyVal))
    (hp : parse_args makedataArgSpecs argv = some ns) (h : "--nsamples" ∉ argv) :
    ns.lookup "nsamples" = some PyVal.none ∧ (simCallOf ns).samples = PyVal.none := by
  rw [parse_args] at hp
  cases ht : tokenize makedataArgSpecs argv with
  | none => rw [ht] at hp; exact absurd hp (by simp)
  | some pairs =>
    rw [ht] at hp
    simp only [makedataArgSpecs] at hp
    obtain ⟨v₁, ns₁, rfl, hf₁, hd₁⟩ := fillArgs_cons _ _ _ _ hp
    have hln : pairs.lookup "--nsamples" = Option.none :=
      lookup_none_of_not_mem _ pairs fun v hv =>
        absurd (tokenize_mem makedataArgSpecs argv pairs ht _ hv) h
    have hv : v₁ = PyVal.none := hd₁ hln
    subst hv
    exact ⟨rfl, rfl⟩

/-- Witness for C8 on the empty command line. -/
theorem nsamples_optional_forwarded_witness :
    parse_args makedataArgSpecs [] = some defaultNamespace
    ∧ "--nsamples" ∉ ([] : List String)
    ∧ defaultNamespace.lookup "nsamples" = some PyVal.none
    ∧ (simCallOf defaultNamespace).samples = PyVal.none :=
  ⟨by decide, by simp,
   (nsamples_optional_forwarded [] defaultNamespace (by decide) (by simp)).1,
   (nsamples_optional_forwarded [] defaultNamespace (by decide) (by simp)).2⟩

end TskitScripts
